import Mathlib

/-!
Verification of the client-side logic in `src/script.js` (Pieruccini Seguros
site script).  Each JavaScript function relevant to the stated properties is
shallowly embedded as an executable Lean definition: strings are `String`
(`List Char` underneath), JavaScript numbers appearing in the counter
animation are modelled as exact rationals `ℚ`, DOM side effects are modelled
as explicit record states or action traces, and code that can throw a
`TypeError` is modelled in `Except String`.
-/

namespace FormHandler

/-- `e.target.value.replace(/\D/g, '')` — keep only the digit characters. -/
def stripNonDigits (s : List Char) : List Char := s.filter Char.isDigit

/-- Number of digit characters in a raw input string. -/
def digitCount (s : String) : Nat := (stripNonDigits s.toList).length

/-- `FormHandler.maskPhone` (script.js lines 327–343), as a function from the
raw input value to the value written back into the field.

The three `value.replace` calls are specialised to the fact that at that
point `value` is a digit-only string of the length tested by the enclosing
branch:
* `/^(\d{2})(\d{5})(\d{4}).*/` matches a digit-only string iff it has at
  least 11 characters; on no match `replace` returns its input unchanged;
* `/^(\d{2})(\d{0,5})/` always matches a digit-only string of length ≥ 3 and
  consumes all of it (length ≤ 6 here);
* `/^(\d*)/` always matches a digit-only string entirely. -/
def maskPhone (raw : String) : String :=
  let value := stripNonDigits raw.toList
  let value := if value.length > 11 then value.take 11 else value
  let value :=
    if value.length > 6 then
      if 11 ≤ value.length then
        '(' :: value.take 2 ++ ')' :: ' ' :: (value.drop 2).take 5
          ++ '-' :: (value.drop 7).take 4
      else value
    else if value.length > 2 then
      '(' :: value.take 2 ++ ')' :: ' ' :: value.drop 2
    else if value.length > 0 then
      '(' :: value
    else value
  String.mk value

/-- Consume one expected literal character (a regex literal such as `\(`). -/
def expectChar (c : Char) : List Char → Option (List Char)
  | x :: xs => if x = c then some xs else none
  | [] => none

/-- Consume exactly `n` digit characters (the regex `\d{n}`). -/
def expectDigits : Nat → List Char → Option (List Char)
  | 0, cs => some cs
  | n + 1, c :: cs => if c.isDigit then expectDigits n cs else none
  | _ + 1, [] => none

/-- The phone validation regex `/^\(\d{2}\) \d{5}-\d{4}$/` from
`FormHandler.validateField` (script.js line 367), transcribed
literal-by-literal. -/
def phoneRegexTest (s : String) : Bool :=
  ((((((((expectChar '(' s.toList).bind
    (expectDigits 2)).bind
    (expectChar ')')).bind
    (expectChar ' ')).bind
    (expectDigits 5)).bind
    (expectChar '-')).bind
    (expectDigits 4)).elim false List.isEmpty)

/-- The claim's "valid strict prefix of the shape `(DD) DDDDD-DDDD`": the
string extends to one accepted by the phone validation regex, and is
strictly shorter than it. -/
def strictPrefixOfShape (s : String) : Prop :=
  ∃ t : String, phoneRegexTest t = true ∧ s.toList <+: t.toList ∧
    s.toList.length < t.toList.length

/-- Padding digits used to exhibit completions of partial masked values. -/
def zeros (n : Nat) : List Char := List.replicate n '0'

/-- The character class `[^\s@]` used throughout the email regex. -/
def atomChar (c : Char) : Bool := !c.isWhitespace && c != '@'

/-- The email validation regex `/^[^\s@]+@[^\s@]+\.[^\s@]+$/` from
`FormHandler.validateField` (script.js line 361).  Because `@` is outside the
`[^\s@]` class, the leading `[^\s@]+` is exactly a maximal run of atom
characters followed by a literal `@`; the anchored tail `[^\s@]+\.[^\s@]+$`
holds of the remaining characters iff they are all atom characters (`.` is an
atom character) and some `.` occurs at an interior position. -/
def emailRegexTest (s : String) : Bool :=
  let cs := s.toList
  let localPart := cs.takeWhile atomChar
  match cs.dropWhile atomChar with
  | x :: domain =>
      x == '@' && !localPart.isEmpty && domain.all atomChar
        && ((domain.drop 1).dropLast.contains '.')
  | [] => false

/-- The spec's reading of the email rule: a value of the form
`local@domain.tld` with non-empty local part, domain and TLD, no whitespace
and no further `@` (each part drawn from the regex class `[^\s@]`). -/
def EmailShape (s : String) : Prop :=
  ∃ l d t : List Char,
    l ≠ [] ∧ d ≠ [] ∧ t ≠ [] ∧
    (∀ c ∈ l, atomChar c = true) ∧
    (∀ c ∈ d, atomChar c = true) ∧
    (∀ c ∈ t, atomChar c = true) ∧
    s.toList = l ++ '@' :: (d ++ '.' :: t)

/-- Model of JavaScript `String.prototype.trim()` as used by
`validateField`: remove leading and trailing whitespace characters. -/
def trimValue (s : String) : String :=
  String.mk
    (((s.toList.dropWhile Char.isWhitespace).reverse.dropWhile
      Char.isWhitespace).reverse)

/-- The data `FormHandler.validateField` reads from a form control. -/
structure FormField where
  type : String
  tagName : String
  required : Bool
  value : String
  deriving DecidableEq, Repr

/-- `FormHandler.validateField` (script.js lines 345–381).  The four checks
run in source order and each later applicable check overwrites `isValid`,
exactly as the sequential assignments do in the JavaScript. -/
def validateField (field : FormField) : Bool :=
  let value := trimValue field.value
  let isValid := true
  let isValid := if field.required && value == ("") then false else isValid
  let isValid :=
    if field.type == ("email") && value != ("") then emailRegexTest value
    else isValid
  let isValid :=
    if field.type == ("tel") && value != ("") then phoneRegexTest value
    else isValid
  let isValid :=
    if field.tagName == ("SELECT") && field.required then value != ("")
    else isValid
  isValid

/-- `FormHandler.validateForm`: every field must validate.  (The JavaScript
`forEach` evaluates `validateField` on every field for its error-class side
effect; the resulting boolean is the conjunction, as modelled here.) -/
def validateForm (fields : List FormField) : Bool :=
  fields.all validateField

/-- The user-visible actions performed by `FormHandler.handleSubmit`. -/
inductive FormAction where
  | focusField (f : FormField)
  | setLoadingLabel
  | disableSubmit
  | resetForm
  | showFeedback
  | showSuccessMsg
  | restoreLabel
  | enableSubmit
  | scrollToForm
  | hideFeedback
  | hideSuccessMsg
  deriving DecidableEq, Repr

/-- `FormHandler.handleSubmit` (script.js lines 395–438) as a trace of
`(time in ms after submit, action)` pairs, in execution order.

On the invalid path the code focuses the first control inside a
`.form__group--error` group; after `validateForm` those groups are exactly
the fields on which `validateField` returned false, in document order, so the
focused control is `fields.find? (fun f => !validateField f)`.

On the valid path the outer `setTimeout(..., 2000)` callback runs at 2000ms
and its nested `setTimeout(..., 5000)` callback at 2000 + 5000 ms. -/
def handleSubmit (fields : List FormField) : List (Nat × FormAction) :=
  if validateForm fields then
    [(0, .setLoadingLabel), (0, .disableSubmit),
     (2000, .resetForm), (2000, .showFeedback), (2000, .showSuccessMsg),
     (2000, .restoreLabel), (2000, .enableSubmit), (2000, .scrollToForm),
     (2000 + 5000, .hideFeedback), (2000 + 5000, .hideSuccessMsg)]
  else
    match fields.find? (fun f => !validateField f) with
    | some g => [(0, .focusField g)]
    | none => []

end FormHandler

namespace AnimatedCounters

/-- Upper bound on the number of animation frames the counter loops need:
for every integer target the accumulator reaches the target within 125
frames of size `target / 125`, so 126 frames of fuel always suffice (the
theorems below prove the terminal frame is reached). -/
def frameBudget : Nat := 126

/-- One run of the `updateCounter` callback chain of
`AnimatedCounters.animateValue` (script.js lines 505–514), recording the
value visible in `element.textContent` at the end of each animation frame.
On the terminal frame the code writes `Math.floor(current)` and then
`target` within the same callback, so the value visible for that frame is
`target`. -/
def animateValueLoop (target : ℤ) (step : ℚ) : ℚ → Nat → List ℤ
  | _, 0 => []
  | current, fuel + 1 =>
    let c := min (current + step) (target : ℚ)
    if c < (target : ℚ) then ⌊c⌋ :: animateValueLoop target step c fuel
    else [target]

/-- `AnimatedCounters.animateValue` (script.js lines 498–517):
`duration = 2000`, `step = target / (duration / 16)`, accumulator clamped by
`Math.min`, started at `current = 0`. -/
def animateValue (target : ℤ) : List ℤ :=
  let duration : ℚ := 2000
  let step : ℚ := (target : ℚ) / (duration / 16)
  animateValueLoop target step 0 frameBudget

end AnimatedCounters

namespace ScrollReveal

/-- One run of the `updateCounter` callback chain of
`ScrollReveal.animateCounter` (script.js lines 217–225): the accumulator is
not clamped, `Math.floor(current)` is displayed only while
`current < target`, and otherwise the frame displays `target`. -/
def animateCounterLoop (target : ℤ) (step : ℚ) : ℚ → Nat → List ℤ
  | _, 0 => []
  | current, fuel + 1 =>
    let c := current + step
    if c < (target : ℚ) then ⌊c⌋ :: animateCounterLoop target step c fuel
    else [target]

/-- `ScrollReveal.animateCounter` (script.js lines 210–228):
`duration = 2000`, `step = target / (duration / 16)`, started at
`current = 0`. -/
def animateCounter (target : ℤ) : List ℤ :=
  let duration : ℚ := 2000
  let step : ℚ := (target : ℚ) / (duration / 16)
  animateCounterLoop target step 0 AnimatedCounters.frameBudget

end ScrollReveal

namespace AnimatedCounters

/-- The state of one `[data-counter]` element as seen by the
`AnimatedCounters` observer: its parsed target, whether it carries the
`counted` class, whether the `IntersectionObserver` still observes it, and
the values written to its `textContent` so far. -/
structure CounterElem where
  target : ℤ
  counted : Bool
  observed : Bool
  frames : List ℤ
  deriving DecidableEq, Repr

/-- One delivery of the `AnimatedCounters.init` observer callback for one
entry (script.js lines 484–491): if the entry is intersecting and the
element does not yet carry the `counted` class, run `animateValue` (which
first adds the `counted` class) and unobserve the element; otherwise do
nothing. -/
def observerStep (isIntersecting : Bool) (e : CounterElem) : CounterElem :=
  if isIntersecting && !e.counted then
    { e with
      counted := true,
      frames := e.frames ++ animateValue e.target,
      observed := false }
  else e

end AnimatedCounters

namespace ScrollReveal

/-- The state of one `[data-reveal]` element as seen by the `ScrollReveal`
observer: whether it carries the `revealed` class, whether it is still
observed, and its `[data-counter]` descendant if any. -/
structure RevealElem where
  revealed : Bool
  observed : Bool
  counterChild : Option AnimatedCounters.CounterElem
  deriving DecidableEq, Repr

/-- One delivery of the `ScrollReveal.init` observer callback for one entry
(script.js lines 181–199): on intersection the element gains the `revealed`
class (after its `data-delay`, which does not affect the resulting state),
its counter child is animated unless it already carries the `counted`
class, and the element is unobserved.  A non-intersecting delivery does
nothing. -/
def revealStep (isIntersecting : Bool) (e : RevealElem) : RevealElem :=
  if isIntersecting then
    { e with
      revealed := true,
      observed := false,
      counterChild :=
        match e.counterChild with
        | some c =>
            some
              (if !c.counted then
                { c with
                  counted := true,
                  frames := c.frames ++ animateCounter c.target }
              else c)
        | none => none }
  else e

end ScrollReveal

namespace Navigation

/-- The pieces of page state mutated by `Navigation.openMenu` and
`Navigation.closeMenu`: the `isOpen` flag, whether the menu element carries
the `navbar__menu--active` class, the toggle's `aria-expanded` attribute
value, and `document.body.style.overflow`. -/
structure NavState where
  isOpen : Bool
  menuActive : Bool
  ariaExpanded : String
  bodyOverflow : String
  deriving DecidableEq, Repr

/-- `Navigation.openMenu` (script.js lines 100–105). -/
def openMenu (_s : NavState) : NavState :=
  { isOpen := true
    menuActive := true
    ariaExpanded := ("true")
    bodyOverflow := ("hidden") }

/-- `Navigation.closeMenu` (script.js lines 107–112). -/
def closeMenu (_s : NavState) : NavState :=
  { isOpen := false
    menuActive := false
    ariaExpanded := ("false")
    bodyOverflow := ("") }

/-- `Navigation.toggleMenu` (script.js lines 96–98). -/
def toggleMenu (s : NavState) : NavState :=
  if s.isOpen then closeMenu s else openMenu s

/-- The events handled by the listeners that `Navigation.init` registers
(script.js lines 64–94).  For a document-level click, the two booleans are
`this.menu.contains(e.target)` and `this.toggle.contains(e.target)`. -/
inductive NavEvent where
  | toggleClick
  | documentClick (targetInMenu targetInToggle : Bool)
  | escapeKey
  | otherKey
  | linkClick
  deriving DecidableEq, Repr

/-- One event dispatch against the listeners of `Navigation.init`:
* a click on the toggle runs `toggleMenu` (the bubbled document-level click
  then sees `this.toggle.contains(e.target)` and does not close again);
* a document-level click closes the menu iff it is open and the target is
  inside neither the menu nor the toggle;
* `keydown` closes the menu iff the key is `Escape` and the menu is open;
* a click on a `.navbar__link` (inside the menu) closes the menu if open
  (the bubbled document click sees `this.menu.contains(e.target)`). -/
def navStep (s : NavState) (e : NavEvent) : NavState :=
  match e with
  | .toggleClick => toggleMenu s
  | .documentClick inMenu inToggle =>
      if s.isOpen && !inMenu && !inToggle then closeMenu s else s
  | .escapeKey => if s.isOpen then closeMenu s else s
  | .otherKey => s
  | .linkClick => if s.isOpen then closeMenu s else s

/-- The mutual consistency the spec asserts between the four effects. -/
def navConsistent (s : NavState) : Prop :=
  s.menuActive = s.isOpen ∧
  s.ariaExpanded = (if s.isOpen then ("true") else ("false")) ∧
  s.bodyOverflow = (if s.isOpen then ("hidden") else (""))

instance (s : NavState) : Decidable (navConsistent s) := by
  unfold navConsistent; infer_instance

/-- Which of the elements the `Navigation` constructor queries are present
in the page markup (`document.querySelector` returning null is modelled as
`false`). -/
structure NavDom where
  navbar : Bool
  toggle : Bool
  menu : Bool
  deriving DecidableEq, Repr

/-- `Navigation.handleScroll` (script.js lines 114–120): reads
`window.scrollY` and toggles the `navbar--scrolled` class on `this.navbar`.
Both branches dereference `this.navbar`, so a missing `.navbar` element
makes this throw a `TypeError`.  On success it returns whether the class is
present afterwards (`scrollY > 50`). -/
def handleScroll (dom : NavDom) (scrollY : Nat) : Except String Bool :=
  if dom.navbar then Except.ok (scrollY > 50)
  else Except.error ("TypeError: this.navbar is null")

/-- `new Navigation()` (script.js lines 54–94): the constructor queries the
elements and calls `init`.  Registering the toggle listener is guarded by
`if (this.toggle)`, the link and document-level listeners only register
callbacks, but `init` calls `this.handleScroll()` unconditionally, which
dereferences `this.navbar`. -/
def navigationConstruct (dom : NavDom) (scrollY : Nat) : Except String Unit :=
  (handleScroll dom scrollY).map (fun _ => ())

/-- `new FormHandler()` (script.js lines 297–325): `if (!this.form) return;`
short-circuits construction when the form is absent, and with the form
present `init` only registers listeners (the phone-mask listener is guarded
by `if (this.phoneInput)`), so construction never throws. -/
def formHandlerConstruct (formPresent : Bool) : Except String Unit :=
  if formPresent then Except.ok () else Except.ok ()

/-- `App.initComponents` (script.js lines 764–794), restricted to the
construction steps that can be affected by missing markup: the components
are constructed in sequence, so an exception thrown by `new Navigation()`
prevents every later component from initializing. -/
def initComponents (dom : NavDom) (formPresent : Bool) (scrollY : Nat) :
    Except String Unit :=
  (navigationConstruct dom scrollY).bind (fun _ =>
    (formHandlerConstruct formPresent).bind (fun _ =>
      Except.ok ()))

end Navigation

/-! ### Lemmas about the phone mask and the phone regex -/

namespace FormHandler

theorem expectChar_eq_some {c : Char} {l r : List Char} :
    expectChar c l = some r ↔ l = c :: r := by
  cases l with
  | nil => simp [expectChar]
  | cons x xs =>
    by_cases hx : x = c
    · subst hx; simp [expectChar]
    · simp only [expectChar, if_neg hx]
      constructor
      · intro h; exact absurd h (by simp)
      · intro h; exact absurd (List.cons.injEq .. ▸ h).1 hx

theorem expectDigits_append {n : Nat} {ds : List Char} (r : List Char)
    (hlen : ds.length = n)
    (hd : ∀ c ∈ ds, c.isDigit = true) : expectDigits n (ds ++ r) = some r := by
  subst hlen
  induction ds with
  | nil => simp [expectDigits]
  | cons c cs ih =>
    have hc := hd c (List.mem_cons_self c cs)
    simp only [List.length_cons, List.cons_append, expectDigits, hc, if_pos]
    exact ih (fun x hx => hd x (List.mem_cons_of_mem c hx))

theorem phoneRegexTest_mk {ds1 ds2 ds3 : List Char}
    (h1 : ds1.length = 2) (h2 : ds2.length = 5) (h3 : ds3.length = 4)
    (a1 : ∀ c ∈ ds1, c.isDigit = true) (a2 : ∀ c ∈ ds2, c.isDigit = true)
    (a3 : ∀ c ∈ ds3, c.isDigit = true) :
    phoneRegexTest
      (String.mk ('(' :: (ds1 ++ ')' :: ' ' :: (ds2 ++ '-' :: ds3)))) = true := by
  have e1 : expectChar '(' ('(' :: (ds1 ++ ')' :: ' ' :: (ds2 ++ '-' :: ds3)))
      = some (ds1 ++ ')' :: ' ' :: (ds2 ++ '-' :: ds3)) := by simp [expectChar]
  have e2 : expectDigits 2 (ds1 ++ ')' :: ' ' :: (ds2 ++ '-' :: ds3))
      = some (')' :: ' ' :: (ds2 ++ '-' :: ds3)) :=
    expectDigits_append (')' :: ' ' :: (ds2 ++ '-' :: ds3)) h1 a1
  have e3 : expectChar ')' (')' :: ' ' :: (ds2 ++ '-' :: ds3))
      = some (' ' :: (ds2 ++ '-' :: ds3)) := by simp [expectChar]
  have e4 : expectChar ' ' (' ' :: (ds2 ++ '-' :: ds3))
      = some (ds2 ++ '-' :: ds3) := by simp [expectChar]
  have e5 : expectDigits 5 (ds2 ++ '-' :: ds3) = some ('-' :: ds3) :=
    expectDigits_append ('-' :: ds3) h2 a2
  have e6 : expectChar '-' ('-' :: ds3) = some ds3 := by simp [expectChar]
  have e7 : expectDigits 4 (ds3 ++ []) = some [] := expectDigits_append [] h3 a3
  rw [List.append_nil] at e7
  unfold phoneRegexTest
  rw [show (String.mk ('(' :: (ds1 ++ ')' :: ' ' :: (ds2 ++ '-' :: ds3)))).toList
      = '(' :: (ds1 ++ ')' :: ' ' :: (ds2 ++ '-' :: ds3)) from rfl]
  rw [e1]
  simp only [Option.some_bind]
  rw [e2]
  simp only [Option.some_bind]
  rw [e3]
  simp only [Option.some_bind]
  rw [e4]
  simp only [Option.some_bind]
  rw [e5]
  simp only [Option.some_bind]
  rw [e6]
  simp only [Option.some_bind]
  rw [e7]
  rfl

theorem phoneRegexTest_starts {t : String} (h : phoneRegexTest t = true) :
    ∃ r, t.toList = '(' :: r := by
  unfold phoneRegexTest at h
  cases hc : expectChar '(' t.toList with
  | none => rw [hc] at h; simp [Option.bind] at h
  | some r => exact ⟨r, expectChar_eq_some.1 hc⟩

end FormHandler

namespace FormHandler

theorem toList_mk (l : List Char) : (String.mk l).toList = l := rfl

theorem zeros_digits (k : Nat) : ∀ c ∈ zeros k, c.isDigit = true := by
  intro c hc
  have hc0 : c = '0' := List.eq_of_mem_replicate hc
  rw [hc0]; decide

end FormHandler

/-- C2: for every raw input with at least 11 digit characters, `maskPhone`
formats the first 11 digits as `(DD) DDDDD-DDDD`: the output is exactly the
fully formatted string built from those digits, and it is accepted by the
phone validation regex. -/
theorem maskPhone_eleven (raw : String) (h : 11 ≤ FormHandler.digitCount raw) :
    (FormHandler.maskPhone raw).toList =
      '(' :: (((FormHandler.stripNonDigits raw.toList).take 11).take 2
        ++ ')' :: ' ' :: ((((FormHandler.stripNonDigits raw.toList).take 11).drop 2).take 5
        ++ '-' :: (((FormHandler.stripNonDigits raw.toList).take 11).drop 7).take 4)) ∧
    FormHandler.phoneRegexTest (FormHandler.maskPhone raw) = true := by
  open FormHandler in
  have hvlen : 11 ≤ (stripNonDigits raw.toList).length := h
  have hdig : ∀ c ∈ FormHandler.stripNonDigits raw.toList, c.isDigit = true :=
    fun c hc => List.of_mem_filter hc
  have hT : ((FormHandler.stripNonDigits raw.toList).take 11).length = 11 := by
    rw [List.length_take]; omega
  have hkey : FormHandler.maskPhone raw = String.mk
      ('(' :: (((FormHandler.stripNonDigits raw.toList).take 11).take 2
        ++ ')' :: ' ' :: ((((FormHandler.stripNonDigits raw.toList).take 11).drop 2).take 5
        ++ '-' :: (((FormHandler.stripNonDigits raw.toList).take 11).drop 7).take 4))) := by
    simp only [FormHandler.maskPhone]
    by_cases hgt : (FormHandler.stripNonDigits raw.toList).length > 11
    · rw [if_pos hgt,
        if_pos (show ((FormHandler.stripNonDigits raw.toList).take 11).length > 6 by omega),
        if_pos (show 11 ≤ ((FormHandler.stripNonDigits raw.toList).take 11).length by omega)]
      congr 1
      simp [List.cons_append, List.append_assoc]
    · have htk : (FormHandler.stripNonDigits raw.toList).take 11
          = FormHandler.stripNonDigits raw.toList := List.take_of_length_le (by omega)
      rw [if_neg hgt,
        if_pos (show (FormHandler.stripNonDigits raw.toList).length > 6 by omega),
        if_pos (show 11 ≤ (FormHandler.stripNonDigits raw.toList).length by omega), htk]
      congr 1
      simp [List.cons_append, List.append_assoc]
  constructor
  · rw [hkey]; rfl
  · rw [hkey]
    refine FormHandler.phoneRegexTest_mk ?_ ?_ ?_ ?_ ?_ ?_
    · rw [List.length_take, hT]; decide
    · rw [List.length_take, List.length_drop, hT]; decide
    · rw [List.length_take, List.length_drop, hT]; decide
    · exact fun c hc => hdig c (List.take_subset 11 _ (List.take_subset 2 _ hc))
    · exact fun c hc =>
        hdig c (List.take_subset 11 _ (List.drop_subset 2 _ (List.take_subset 5 _ hc)))
    · exact fun c hc =>
        hdig c (List.take_subset 11 _ (List.drop_subset 7 _ (List.take_subset 4 _ hc)))

/-- C2 witness: the spec's concrete scenario, via `maskPhone_eleven`. -/
theorem maskPhone_eleven_witness :
    11 ≤ FormHandler.digitCount ("11987654321") ∧
    FormHandler.phoneRegexTest (FormHandler.maskPhone ("11987654321")) = true ∧
    FormHandler.maskPhone ("11987654321") = ("(11) 98765-4321") :=
  ⟨by decide, (maskPhone_eleven ("11987654321") (by decide)).2, by decide⟩

/-- C1 (amended): for raw inputs with 1–6 digit characters the masked value
is a valid strict prefix of the shape `(DD) DDDDD-DDDD`; for raw inputs with
7–10 digit characters the formatting regex `/^(\d{2})(\d{5})(\d{4}).*/` does
not match, `replace` returns its input unchanged, and the masked value is
the bare digit string. -/
theorem maskPhone_below_eleven (raw : String)
    (h1 : 1 ≤ FormHandler.digitCount raw) (h2 : FormHandler.digitCount raw ≤ 10) :
    (FormHandler.digitCount raw ≤ 6 →
      FormHandler.strictPrefixOfShape (FormHandler.maskPhone raw)) ∧
    (7 ≤ FormHandler.digitCount raw →
      (FormHandler.maskPhone raw).toList = FormHandler.stripNonDigits raw.toList) := by
  have hl1 : 1 ≤ (FormHandler.stripNonDigits raw.toList).length := h1
  have hl10 : (FormHandler.stripNonDigits raw.toList).length ≤ 10 := h2
  have hdig : ∀ c ∈ FormHandler.stripNonDigits raw.toList, c.isDigit = true :=
    fun c hc => List.of_mem_filter hc
  constructor
  · intro h6
    have hl6 : (FormHandler.stripNonDigits raw.toList).length ≤ 6 := h6
    by_cases h2c : (FormHandler.stripNonDigits raw.toList).length ≤ 2
    · have hkey : FormHandler.maskPhone raw
          = String.mk ('(' :: FormHandler.stripNonDigits raw.toList) := by
        simp only [FormHandler.maskPhone]
        rw [if_neg (show ¬ (FormHandler.stripNonDigits raw.toList).length > 11 by omega),
          if_neg (show ¬ (FormHandler.stripNonDigits raw.toList).length > 6 by omega),
          if_neg (show ¬ (FormHandler.stripNonDigits raw.toList).length > 2 by omega),
          if_pos (show (FormHandler.stripNonDigits raw.toList).length > 0 by omega)]
      refine ⟨String.mk ('(' ::
          ((FormHandler.stripNonDigits raw.toList
              ++ FormHandler.zeros (2 - (FormHandler.stripNonDigits raw.toList).length))
            ++ ')' :: ' ' :: (FormHandler.zeros 5 ++ '-' :: FormHandler.zeros 4))), ?_, ?_, ?_⟩
      · refine FormHandler.phoneRegexTest_mk ?_ ?_ ?_ ?_ ?_ ?_
        · simp only [List.length_append, FormHandler.zeros, List.length_replicate]; omega
        · simp [FormHandler.zeros]
        · simp [FormHandler.zeros]
        · intro c hc
          rcases List.mem_append.1 hc with hc1 | hc2
          · exact hdig c hc1
          · exact FormHandler.zeros_digits _ c hc2
        · exact FormHandler.zeros_digits 5
        · exact FormHandler.zeros_digits 4
      · rw [hkey]
        refine ⟨FormHandler.zeros (2 - (FormHandler.stripNonDigits raw.toList).length)
          ++ ')' :: ' ' :: (FormHandler.zeros 5 ++ '-' :: FormHandler.zeros 4), ?_⟩
        simp [FormHandler.toList_mk, List.cons_append, List.append_assoc]
      · rw [hkey]
        simp only [FormHandler.toList_mk, List.length_cons, List.length_append,
          FormHandler.zeros, List.length_replicate]
        omega
    · have hkey : FormHandler.maskPhone raw
          = String.mk ('(' :: ((FormHandler.stripNonDigits raw.toList).take 2
            ++ ')' :: ' ' :: (FormHandler.stripNonDigits raw.toList).drop 2)) := by
        simp only [FormHandler.maskPhone]
        rw [if_neg (show ¬ (FormHandler.stripNonDigits raw.toList).length > 11 by omega),
          if_neg (show ¬ (FormHandler.stripNonDigits raw.toList).length > 6 by omega),
          if_pos (show (FormHandler.stripNonDigits raw.toList).length > 2 by omega)]
        congr 1
      refine ⟨String.mk ('(' :: ((FormHandler.stripNonDigits raw.toList).take 2
          ++ ')' :: ' ' :: (((FormHandler.stripNonDigits raw.toList).drop 2
              ++ FormHandler.zeros (7 - (FormHandler.stripNonDigits raw.toList).length))
            ++ '-' :: FormHandler.zeros 4))), ?_, ?_, ?_⟩
      · refine FormHandler.phoneRegexTest_mk ?_ ?_ ?_ ?_ ?_ ?_
        · rw [List.length_take]; omega
        · simp only [List.length_append, List.length_drop,
            FormHandler.zeros, List.length_replicate]
          omega
        · simp [FormHandler.zeros]
        · exact fun c hc => hdig c (List.take_subset 2 _ hc)
        · intro c hc
          rcases List.mem_append.1 hc with hc1 | hc2
          · exact hdig c (List.drop_subset 2 _ hc1)
          · exact FormHandler.zeros_digits _ c hc2
        · exact FormHandler.zeros_digits 4
      · rw [hkey]
        refine ⟨FormHandler.zeros (7 - (FormHandler.stripNonDigits raw.toList).length)
          ++ '-' :: FormHandler.zeros 4, ?_⟩
        simp [FormHandler.toList_mk, List.cons_append, List.append_assoc]
      · rw [hkey]
        simp only [FormHandler.toList_mk, List.length_cons, List.length_append,
          List.length_take, List.length_drop, FormHandler.zeros, List.length_replicate]
        omega
  · intro h7
    have hl7 : 7 ≤ (FormHandler.stripNonDigits raw.toList).length := h7
    simp only [FormHandler.maskPhone]
    rw [if_neg (show ¬ (FormHandler.stripNonDigits raw.toList).length > 11 by omega),
      if_pos (show (FormHandler.stripNonDigits raw.toList).length > 6 by omega),
      if_neg (show ¬ 11 ≤ (FormHandler.stripNonDigits raw.toList).length by omega)]
    rfl

/-- C1 witness: the raw keystrokes `123` produce a strict prefix of the
shape, via `maskPhone_below_eleven`. -/
theorem maskPhone_below_eleven_witness :
    (1 ≤ FormHandler.digitCount ("123") ∧ FormHandler.digitCount ("123") ≤ 10 ∧
      FormHandler.digitCount ("123") ≤ 6) ∧
    FormHandler.strictPrefixOfShape (FormHandler.maskPhone ("123")) :=
  ⟨⟨by decide, by decide, by decide⟩,
    (maskPhone_below_eleven ("123") (by decide) (by decide)).1 (by decide)⟩

/-- C1 counterexample: seven digit characters are not re-formatted at all —
`maskPhone "1234567" = "1234567"`, which does not begin with `(` and hence
is not a (strict) prefix of any string accepted by the phone shape regex. -/
theorem maskPhone_seven_digits_counterexample :
    FormHandler.maskPhone ("1234567") = ("1234567") ∧
    ¬ FormHandler.strictPrefixOfShape (FormHandler.maskPhone ("1234567")) := by
  refine ⟨by decide, ?_⟩
  rintro ⟨t, ht, hpre, -⟩
  obtain ⟨r, hr⟩ := FormHandler.phoneRegexTest_starts ht
  have hm : (FormHandler.maskPhone ("1234567")).toList
      = '1' :: ['2', '3', '4', '5', '6', '7'] := by decide
  rw [hm, hr] at hpre
  exact absurd (List.cons_prefix_cons.1 hpre).1 (by decide)

/-! ### Lemmas about the email regex -/

namespace FormHandler

theorem interior_dot_iff (m : List Char) :
    '.' ∈ (m.drop 1).dropLast ↔
      ∃ d t : List Char, d ≠ [] ∧ t ≠ [] ∧ m = d ++ '.' :: t := by
  constructor
  · intro h
    match m with
    | [] => simp at h
    | h0 :: m1 =>
      have h1 : '.' ∈ m1.dropLast := by simpa using h
      have hm1 : m1 ≠ [] := by rintro rfl; simp at h1
      obtain ⟨u, w, huw⟩ := List.append_of_mem h1
      have hlast := List.dropLast_append_getLast hm1
      rw [huw] at hlast
      refine ⟨h0 :: u, w ++ [m1.getLast hm1], by simp, by simp, ?_⟩
      conv_lhs => rw [← hlast]
      simp [List.cons_append, List.append_assoc]
  · rintro ⟨d, t, hd, ht, rfl⟩
    match d, hd, t, ht with
    | d0 :: d1, _, t0 :: t1, _ =>
      simp [List.dropLast_append_cons, List.dropLast_cons₂]

theorem emailRegexTest_iff (s : String) :
    emailRegexTest s = true ↔ EmailShape s := by
  constructor
  · intro h
    simp only [emailRegexTest] at h
    split at h
    case h_2 => exact absurd h (by simp)
    case h_1 x domain heq =>
      simp only [Bool.and_eq_true, beq_iff_eq, Bool.not_eq_true',
        List.isEmpty_eq_false, List.all_eq_true] at h
      obtain ⟨⟨⟨hx, hne⟩, hall⟩, hdot⟩ := h
      have hdot' : '.' ∈ (domain.drop 1).dropLast := by
        simpa [List.contains, List.elem_iff] using hdot
      obtain ⟨d, t, hd, ht, hdomain⟩ := (interior_dot_iff domain).1 hdot'
      refine ⟨s.toList.takeWhile atomChar, d, t, hne, hd, ht,
        (fun c hc => List.mem_takeWhile_imp hc), ?_, ?_, ?_⟩
      · intro c hc
        exact hall c (hdomain ▸ List.mem_append_left _ hc)
      · intro c hc
        exact hall c (hdomain ▸ List.mem_append_right _ (List.mem_cons_of_mem _ hc))
      · have hsplit := (List.takeWhile_append_dropWhile atomChar s.toList).symm
        rw [heq, hx, hdomain] at hsplit
        exact hsplit
  · rintro ⟨l, d, t, hl, hd, ht, hal, had, hat, heq⟩
    have h1 : s.toList.takeWhile atomChar = l := by
      rw [heq, List.takeWhile_append_of_pos hal,
        List.takeWhile_cons_of_neg (by decide)]
      simp
    have h2 : s.toList.dropWhile atomChar = '@' :: (d ++ '.' :: t) := by
      rw [heq, List.dropWhile_append_of_pos hal,
        List.dropWhile_cons_of_neg (by decide)]
    simp only [emailRegexTest]
    rw [h2]
    simp only []
    rw [h1]
    simp only [Bool.and_eq_true, beq_self_eq_true, true_and,
      Bool.not_eq_true', List.isEmpty_eq_false, List.all_eq_true]
    refine ⟨⟨hl, ?_⟩, ?_⟩
    · intro c hc
      rcases List.mem_append.1 hc with hc1 | hc2
      · exact had c hc1
      · rcases List.mem_cons.1 hc2 with hc3 | hc4
        · rw [hc3]; decide
        · exact hat c hc4
    · have : '.' ∈ (((d ++ '.' :: t).drop 1).dropLast) :=
        (interior_dot_iff (d ++ '.' :: t)).2 ⟨d, t, hd, ht, rfl⟩
      simpa [List.contains, List.elem_iff] using this

theorem validateField_email (req : Bool) (v : String) (h : trimValue v ≠ ("")) :
    validateField ⟨("email"), ("INPUT"), req, v⟩ = emailRegexTest (trimValue v) := by
  have hbe : (trimValue v == ("")) = false := by
    simpa using h
  simp [validateField, hbe]
  intro hv
  exact absurd hv h

end FormHandler

/-- C8: a non-empty email field value is marked valid exactly when it has
the form `local@domain.tld` — non-empty local part, `@`, non-empty domain,
`.`, non-empty TLD, with every part free of whitespace and further `@`
characters; in particular `not-an-email` is invalid and `a@b.co` valid. -/
theorem email_validation_pattern :
    (∀ (v : String) (req : Bool), FormHandler.trimValue v ≠ ("") →
      (FormHandler.validateField
          { type := ("email"), tagName := ("INPUT"), required := req, value := v } = true ↔
        FormHandler.EmailShape (FormHandler.trimValue v))) ∧
    FormHandler.validateField
      { type := ("email"), tagName := ("INPUT"), required := true,
        value := ("not-an-email") } = false ∧
    FormHandler.validateField
      { type := ("email"), tagName := ("INPUT"), required := true,
        value := ("a@b.co") } = true := by
  refine ⟨?_, by decide, by decide⟩
  intro v req h
  rw [FormHandler.validateField_email req v h]
  exact FormHandler.emailRegexTest_iff (FormHandler.trimValue v)

/-- C8 witness: `email_validation_pattern` applied at the concrete value
`a@b.co`. -/
theorem email_validation_pattern_witness :
    FormHandler.trimValue ("a@b.co") ≠ ("") ∧
    (FormHandler.validateField
        { type := ("email"), tagName := ("INPUT"), required := true,
          value := ("a@b.co") } = true ↔
      FormHandler.EmailShape (FormHandler.trimValue ("a@b.co"))) :=
  ⟨by decide, email_validation_pattern.1 ("a@b.co") true (by decide)⟩

/-! ### Form submission -/

namespace FormHandler

theorem find?_first {α : Type} {p : α → Bool} {l : List α} {a : α}
    (h : l.find? p = some a) :
    p a = true ∧ ∃ s t, l = s ++ a :: t ∧ ∀ x ∈ s, p x = false := by
  induction l with
  | nil => simp [List.find?] at h
  | cons b l ih =>
    by_cases hb : p b = true
    · rw [List.find?_cons_of_pos _ hb] at h
      injection h with h'
      subst h'
      exact ⟨hb, [], l, rfl, by simp⟩
    · rw [List.find?_cons_of_neg _ hb] at h
      obtain ⟨hpa, s, t, rfl, hs⟩ := ih h
      refine ⟨hpa, b :: s, t, rfl, ?_⟩
      intro x hx
      rcases List.mem_cons.1 hx with rfl | hx2
      · simpa using hb
      · exact hs x hx2

end FormHandler

/-- C4: a submission with at least one invalid field is cancelled: the only
action performed is to focus the first invalid field in document order, and
none of the submitting/success actions ever occur. -/
theorem handleSubmit_invalid (fields : List FormHandler.FormField)
    (h : ∃ f ∈ fields, FormHandler.validateField f = false) :
    ∃ g pre post,
      FormHandler.handleSubmit fields = [(0, FormHandler.FormAction.focusField g)] ∧
      FormHandler.validateField g = false ∧
      fields = pre ++ g :: post ∧
      (∀ p ∈ pre, FormHandler.validateField p = true) := by
  obtain ⟨f, hf, hffalse⟩ := h
  have hvf : FormHandler.validateForm fields = false := by
    cases hvb : FormHandler.validateForm fields with
    | false => rfl
    | true =>
      simp only [FormHandler.validateForm] at hvb
      have := List.all_eq_true.1 hvb f hf
      simp [this] at hffalse
  have hsome : (fields.find? (fun f => !FormHandler.validateField f)).isSome := by
    rw [List.find?_isSome]
    exact ⟨f, hf, by simp [hffalse]⟩
  obtain ⟨g, hg⟩ := Option.isSome_iff_exists.1 hsome
  obtain ⟨hpg, s, t, heq, hs⟩ := FormHandler.find?_first hg
  refine ⟨g, s, t, ?_, by simpa using hpg, heq, ?_⟩
  · simp [FormHandler.handleSubmit, hvf, hg]
  · intro p hp
    simpa using hs p hp

/-- C4 witness: `handleSubmit_invalid` applied to a one-field form whose
email value is invalid. -/
theorem handleSubmit_invalid_witness :
    (∃ f ∈ [(⟨("email"), ("INPUT"), true, ("not-an-email")⟩ : FormHandler.FormField)],
        FormHandler.validateField f = false) ∧
    ∃ g pre post,
      FormHandler.handleSubmit
          [(⟨("email"), ("INPUT"), true, ("not-an-email")⟩ : FormHandler.FormField)]
        = [(0, FormHandler.FormAction.focusField g)] ∧
      FormHandler.validateField g = false ∧
      [(⟨("email"), ("INPUT"), true, ("not-an-email")⟩ : FormHandler.FormField)]
        = pre ++ g :: post ∧
      (∀ p ∈ pre, FormHandler.validateField p = true) :=
  ⟨by decide, handleSubmit_invalid _ (by decide)⟩

/-- C9: a fully valid submission enters the submitting state at once
(loading label, disabled control), performs the reset / success-message /
re-enable actions when the simulated 2000ms delay fires, and hides the
success message again 5000ms later (at 7000ms); the trace contains no
other action — in particular no network transmission is modelled anywhere
in `handleSubmit`. -/
theorem handleSubmit_success_timeline (fields : List FormHandler.FormField)
    (h : FormHandler.validateForm fields = true) :
    FormHandler.handleSubmit fields =
      [(0, FormHandler.FormAction.setLoadingLabel),
       (0, FormHandler.FormAction.disableSubmit),
       (2000, FormHandler.FormAction.resetForm),
       (2000, FormHandler.FormAction.showFeedback),
       (2000, FormHandler.FormAction.showSuccessMsg),
       (2000, FormHandler.FormAction.restoreLabel),
       (2000, FormHandler.FormAction.enableSubmit),
       (2000, FormHandler.FormAction.scrollToForm),
       (7000, FormHandler.FormAction.hideFeedback),
       (7000, FormHandler.FormAction.hideSuccessMsg)] := by
  simp [FormHandler.handleSubmit, h]

/-- C9 witness: `handleSubmit_success_timeline` on a valid one-field form. -/
theorem handleSubmit_success_timeline_witness :
    FormHandler.validateForm
        [(⟨("text"), ("INPUT"), true, ("hello")⟩ : FormHandler.FormField)] = true ∧
    FormHandler.handleSubmit
        [(⟨("text"), ("INPUT"), true, ("hello")⟩ : FormHandler.FormField)] =
      [(0, FormHandler.FormAction.setLoadingLabel),
       (0, FormHandler.FormAction.disableSubmit),
       (2000, FormHandler.FormAction.resetForm),
       (2000, FormHandler.FormAction.showFeedback),
       (2000, FormHandler.FormAction.showSuccessMsg),
       (2000, FormHandler.FormAction.restoreLabel),
       (2000, FormHandler.FormAction.enableSubmit),
       (2000, FormHandler.FormAction.scrollToForm),
       (7000, FormHandler.FormAction.hideFeedback),
       (7000, FormHandler.FormAction.hideSuccessMsg)] :=
  ⟨by decide, handleSubmit_success_timeline _ (by decide)⟩

/-! ### Lemmas about the counter animations -/

namespace AnimatedCounters

/-- The two counter loops agree frame-by-frame: whenever `Math.min` clamps,
the accumulator has reached or passed the target and both loops display
`target` and stop. -/
theorem animate_loops_eq (target : ℤ) (step : ℚ) :
    ∀ (fuel : Nat) (current : ℚ),
      ScrollReveal.animateCounterLoop target step current fuel
        = animateValueLoop target step current fuel := by
  intro fuel
  induction fuel with
  | zero => intro current; rfl
  | succ n ih =>
    intro current
    simp only [ScrollReveal.animateCounterLoop, animateValueLoop]
    by_cases hle : current + step ≤ (target : ℚ)
    · rw [min_eq_left hle]
      by_cases hlt : current + step < (target : ℚ)
      · rw [if_pos hlt, if_pos hlt, ih]
      · rw [if_neg hlt, if_neg hlt]
    · have hlt : (target : ℚ) < current + step := not_le.1 hle
      rw [min_eq_right hlt.le, if_neg (lt_irrefl _), if_neg (not_lt.2 hlt.le)]

theorem animateValueLoop_le (target : ℤ) (step : ℚ) :
    ∀ (fuel : Nat) (current : ℚ),
      ∀ x ∈ animateValueLoop target step current fuel, x ≤ target := by
  intro fuel
  induction fuel with
  | zero => intro current x hx; simp [animateValueLoop] at hx
  | succ n ih =>
    intro current x hx
    simp only [animateValueLoop] at hx
    by_cases hlt : min (current + step) (target : ℚ) < (target : ℚ)
    · rw [if_pos hlt] at hx
      rcases List.mem_cons.1 hx with rfl | hx2
      · calc ⌊min (current + step) (target : ℚ)⌋
            ≤ ⌊(target : ℚ)⌋ := Int.floor_le_floor (min_le_right _ _)
          _ = target := Int.floor_intCast target
      · exact ih _ x hx2
    · rw [if_neg hlt] at hx
      rw [List.mem_singleton.1 hx]

theorem animateValueLoop_chain (target : ℤ) (step : ℚ) (hstep : 0 ≤ step) :
    ∀ (fuel : Nat) (current : ℚ),
      List.Chain' (· ≤ ·) (animateValueLoop target step current fuel) ∧
      ∀ x ∈ animateValueLoop target step current fuel,
        ⌊min (current + step) (target : ℚ)⌋ ≤ x := by
  intro fuel
  induction fuel with
  | zero =>
    intro current
    exact ⟨List.chain'_nil, by simp [animateValueLoop]⟩
  | succ n ih =>
    intro current
    simp only [animateValueLoop]
    by_cases hlt : min (current + step) (target : ℚ) < (target : ℚ)
    · rw [if_pos hlt]
      obtain ⟨ihchain, ihlow⟩ := ih (min (current + step) (target : ℚ))
      have hmono : ⌊min (current + step) (target : ℚ)⌋
          ≤ ⌊min (min (current + step) (target : ℚ) + step) (target : ℚ)⌋ := by
        apply Int.floor_le_floor
        apply le_min
        · exact le_add_of_nonneg_right hstep
        · exact min_le_right _ _
      constructor
      · rw [List.chain'_cons']
        refine ⟨?_, ihchain⟩
        intro y hy
        have hymem : y ∈ animateValueLoop target step
            (min (current + step) (target : ℚ)) n := List.mem_of_mem_head? hy
        exact le_trans hmono (ihlow y hymem)
      · intro x hx
        rcases List.mem_cons.1 hx with rfl | hx2
        · exact le_refl _
        · exact le_trans hmono (ihlow x hx2)
    · rw [if_neg hlt]
      refine ⟨List.chain'_singleton _, ?_⟩
      intro x hx
      rw [List.mem_singleton.1 hx]
      calc ⌊min (current + step) (target : ℚ)⌋
          ≤ ⌊(target : ℚ)⌋ := Int.floor_le_floor (min_le_right _ _)
        _ = target := Int.floor_intCast target

theorem animateValueLoop_getLast (target : ℤ) (ht : 0 < target) :
    ∀ (fuel j : Nat), j < 125 → 125 - j ≤ fuel →
      (animateValueLoop target ((target : ℚ) / (2000 / 16))
        ((j : ℚ) * ((target : ℚ) / (2000 / 16))) fuel).getLast? = some target := by
  have hstep : (0 : ℚ) < (target : ℚ) / (2000 / 16) := by
    apply div_pos
    · exact_mod_cast ht
    · norm_num
  have h125 : (125 : ℚ) * ((target : ℚ) / (2000 / 16)) = (target : ℚ) := by
    rw [show ((2000 : ℚ) / 16) = 125 by norm_num, mul_comm]
    exact div_mul_cancel₀ _ (by norm_num)
  intro fuel
  induction fuel with
  | zero => intro j hj hf; omega
  | succ n ih =>
    intro j hj hf
    have hkey : (j : ℚ) * ((target : ℚ) / (2000 / 16)) + (target : ℚ) / (2000 / 16)
        = ((j + 1 : Nat) : ℚ) * ((target : ℚ) / (2000 / 16)) := by
      push_cast; ring
    simp only [animateValueLoop]
    rw [hkey]
    by_cases hcase : j + 1 < 125
    · have hlt : ((j + 1 : Nat) : ℚ) * ((target : ℚ) / (2000 / 16)) < (target : ℚ) := by
        have h' : ((j + 1 : Nat) : ℚ) * ((target : ℚ) / (2000 / 16))
            < 125 * ((target : ℚ) / (2000 / 16)) :=
          mul_lt_mul_of_pos_right (by exact_mod_cast hcase) hstep
        rwa [h125] at h'
      rw [min_eq_left hlt.le, if_pos hlt]
      have hrec := ih (j + 1) hcase (by omega)
      cases hrest : animateValueLoop target ((target : ℚ) / (2000 / 16))
          (((j + 1 : Nat) : ℚ) * ((target : ℚ) / (2000 / 16))) n with
      | nil => rw [hrest] at hrec; simp at hrec
      | cons b l =>
        rw [hrest] at hrec
        rw [List.getLast?_cons_cons]
        exact hrec
    · have hj1 : j + 1 = 125 := by omega
      have heq : ((j + 1 : Nat) : ℚ) * ((target : ℚ) / (2000 / 16)) = (target : ℚ) := by
        rw [hj1]; exact_mod_cast h125
      rw [heq, min_self, if_neg (lt_irrefl _)]
      rfl

end AnimatedCounters

/-- C10: the two counter implementations — `ScrollReveal.animateCounter`
(unclamped accumulator, floor displayed only below the target) and
`AnimatedCounters.animateValue` (accumulator clamped by `Math.min`, floor
displayed every frame and overwritten by `target` on the terminal frame
within the same callback) — produce the same per-frame sequence of visible
displayed values and the same final displayed value, for every integer
target. -/
theorem counter_implementations_agree (target : ℤ) :
    ScrollReveal.animateCounter target = AnimatedCounters.animateValue target ∧
    (ScrollReveal.animateCounter target).getLast?
      = (AnimatedCounters.animateValue target).getLast? := by
  have h1 : ScrollReveal.animateCounter target = AnimatedCounters.animateValue target := by
    simp only [ScrollReveal.animateCounter, AnimatedCounters.animateValue]
    exact AnimatedCounters.animate_loops_eq target _ AnimatedCounters.frameBudget 0
  exact ⟨h1, by rw [h1]⟩

/-- C3: for every positive integer target `T`, both counter animations
display a non-decreasing sequence of integers, never display a value above
`T`, and their final displayed value is exactly `T`. -/
theorem counters_monotone_exact (target : ℤ) (ht : 0 < target) :
    (List.Chain' (· ≤ ·) (AnimatedCounters.animateValue target) ∧
      (∀ x ∈ AnimatedCounters.animateValue target, x ≤ target) ∧
      (AnimatedCounters.animateValue target).getLast? = some target) ∧
    (List.Chain' (· ≤ ·) (ScrollReveal.animateCounter target) ∧
      (∀ x ∈ ScrollReveal.animateCounter target, x ≤ target) ∧
      (ScrollReveal.animateCounter target).getLast? = some target) := by
  have hstep : (0 : ℚ) ≤ (target : ℚ) / (2000 / 16) := by
    apply div_nonneg
    · exact_mod_cast ht.le
    · norm_num
  have hAV : AnimatedCounters.animateValue target
      = AnimatedCounters.animateValueLoop target ((target : ℚ) / (2000 / 16)) 0
          AnimatedCounters.frameBudget := by
    simp only [AnimatedCounters.animateValue]
  have heqSR : ScrollReveal.animateCounter target
      = AnimatedCounters.animateValue target := by
    simp only [ScrollReveal.animateCounter, AnimatedCounters.animateValue]
    exact AnimatedCounters.animate_loops_eq target _ AnimatedCounters.frameBudget 0
  have hlast : (AnimatedCounters.animateValue target).getLast? = some target := by
    rw [hAV, show (0 : ℚ) = ((0 : Nat) : ℚ) * ((target : ℚ) / (2000 / 16)) by simp]
    exact AnimatedCounters.animateValueLoop_getLast target ht
      AnimatedCounters.frameBudget 0 (by norm_num)
      (by norm_num [AnimatedCounters.frameBudget])
  obtain ⟨hchain, -⟩ :=
    AnimatedCounters.animateValueLoop_chain target _ hstep AnimatedCounters.frameBudget 0
  have hle := AnimatedCounters.animateValueLoop_le target ((target : ℚ) / (2000 / 16))
    AnimatedCounters.frameBudget 0
  refine ⟨⟨?_, ?_, hlast⟩, ?_⟩
  · rw [hAV]; exact hchain
  · rw [hAV]; exact hle
  · rw [heqSR]
    refine ⟨?_, ?_, hlast⟩
    · rw [hAV]; exact hchain
    · rw [hAV]; exact hle

/-- C3 witness: `counters_monotone_exact` applied at target 125. -/
theorem counters_monotone_exact_witness :
    0 < (125 : ℤ) ∧
    (AnimatedCounters.animateValue 125).getLast? = some 125 ∧
    (ScrollReveal.animateCounter 125).getLast? = some 125 ∧
    List.Chain' (· ≤ ·) (AnimatedCounters.animateValue 125) :=
  ⟨by decide, (counters_monotone_exact 125 (by decide)).1.2.2,
    (counters_monotone_exact 125 (by decide)).2.2.2,
    (counters_monotone_exact 125 (by decide)).1.1⟩

/-! ### Navigation and observer components -/

/-- C5 counterexample: constructing `Navigation` on a page without a
`.navbar` element does not silently no-op — `init` calls `handleScroll()`
unconditionally, which dereferences the null `navbar` and throws, and since
`App.initComponents` constructs the components in sequence, the components
after `Navigation` never initialize. -/
theorem navigation_missing_navbar_counterexample :
    Navigation.navigationConstruct ⟨false, true, true⟩ 0
      = Except.error ("TypeError: this.navbar is null") ∧
    Navigation.initComponents ⟨false, true, true⟩ true 0
      = Except.error ("TypeError: this.navbar is null") := by
  exact ⟨rfl, rfl⟩

/-- C5 (amended): construction is safe for `Navigation` whenever `.navbar`
is present — a missing `.navbar__toggle` or `.navbar__menu` is tolerated
(the toggle listener is guarded and the menu is not dereferenced during
init) — and `FormHandler` short-circuits on a missing form; but when
`.navbar` is missing the `Navigation` constructor throws a `TypeError` and
the remaining components are never initialized. -/
theorem component_missing_markup_amended :
    (∀ (t m : Bool) (y : Nat),
      Navigation.navigationConstruct ⟨true, t, m⟩ y = Except.ok ()) ∧
    (∀ (t m : Bool) (y : Nat),
      Navigation.navigationConstruct ⟨false, t, m⟩ y
        = Except.error ("TypeError: this.navbar is null")) ∧
    (∀ p : Bool, Navigation.formHandlerConstruct p = Except.ok ()) ∧
    (∀ (dom : Navigation.NavDom) (p : Bool) (y : Nat), dom.navbar = true →
      Navigation.initComponents dom p y = Except.ok ()) ∧
    (∀ (dom : Navigation.NavDom) (p : Bool) (y : Nat), dom.navbar = false →
      Navigation.initComponents dom p y
        = Except.error ("TypeError: this.navbar is null")) := by
  refine ⟨fun t m y => rfl, fun t m y => rfl, ?_, ?_, ?_⟩
  · intro p; cases p <;> rfl
  · rintro ⟨nb, t, m⟩ p y h
    cases h
    cases p <;> rfl
  · rintro ⟨nb, t, m⟩ p y h
    cases h
    rfl

/-- C5 witness: `component_missing_markup_amended` applied at concrete
pages — navbar present with toggle and menu missing constructs cleanly;
navbar missing aborts initialization. -/
theorem component_missing_markup_amended_witness :
    Navigation.navigationConstruct ⟨true, false, false⟩ 0 = Except.ok () ∧
    Navigation.formHandlerConstruct false = Except.ok () ∧
    Navigation.initComponents ⟨false, true, true⟩ false 0
      = Except.error ("TypeError: this.navbar is null") :=
  ⟨component_missing_markup_amended.1 false false 0,
    component_missing_markup_amended.2.2.1 false,
    component_missing_markup_amended.2.2.2.2 ⟨false, true, true⟩ false 0 rfl⟩

/-- C6: `openMenu` and `closeMenu` each establish the mutual consistency of
the open flag, the menu's active class, the toggle's `aria-expanded` value
and the body scroll lock (`openMenu` setting all four, `closeMenu`
reversing them); every handled event preserves the consistency; and while
the menu is open, an outside click, the Escape key, or a menu-link click
closes it. -/
theorem nav_menu_state_consistent :
    (∀ s : Navigation.NavState,
      Navigation.navConsistent (Navigation.openMenu s) ∧
      (Navigation.openMenu s).isOpen = true ∧
      Navigation.navConsistent (Navigation.closeMenu s) ∧
      (Navigation.closeMenu s).isOpen = false) ∧
    (∀ (s : Navigation.NavState) (e : Navigation.NavEvent),
      Navigation.navConsistent s → Navigation.navConsistent (Navigation.navStep s e)) ∧
    (∀ s : Navigation.NavState, s.isOpen = true →
      (Navigation.navStep s (Navigation.NavEvent.documentClick false false)).isOpen
          = false ∧
      (Navigation.navStep s Navigation.NavEvent.escapeKey).isOpen = false ∧
      (Navigation.navStep s Navigation.NavEvent.linkClick).isOpen = false) := by
  have hopen : ∀ s, Navigation.navConsistent (Navigation.openMenu s) := by
    intro s; simp [Navigation.navConsistent, Navigation.openMenu]
  have hclose : ∀ s, Navigation.navConsistent (Navigation.closeMenu s) := by
    intro s; simp [Navigation.navConsistent, Navigation.closeMenu]
  refine ⟨fun s => ⟨hopen s, rfl, hclose s, rfl⟩, ?_, ?_⟩
  · intro s e h
    cases e with
    | toggleClick =>
      simp only [Navigation.navStep, Navigation.toggleMenu]
      split
      · exact hclose s
      · exact hopen s
    | documentClick inMenu inToggle =>
      simp only [Navigation.navStep]
      split
      · exact hclose s
      · exact h
    | escapeKey =>
      simp only [Navigation.navStep]
      split
      · exact hclose s
      · exact h
    | otherKey => exact h
    | linkClick =>
      simp only [Navigation.navStep]
      split
      · exact hclose s
      · exact h
  · intro s hs
    refine ⟨?_, ?_, ?_⟩ <;>
      simp [Navigation.navStep, Navigation.closeMenu, hs]

/-- C6 witness: `nav_menu_state_consistent` applied at the concrete open
state (menu shown, `aria-expanded="true"`, scroll locked). -/
theorem nav_menu_state_consistent_witness :
    Navigation.navConsistent
      (⟨true, true, ("true"), ("hidden")⟩ : Navigation.NavState) ∧
    Navigation.navConsistent
      (Navigation.navStep ⟨true, true, ("true"), ("hidden")⟩
        Navigation.NavEvent.escapeKey) ∧
    (Navigation.navStep (⟨true, true, ("true"), ("hidden")⟩ : Navigation.NavState)
        Navigation.NavEvent.escapeKey).isOpen = false :=
  ⟨by decide,
    nav_menu_state_consistent.2.1 ⟨true, true, ("true"), ("hidden")⟩
      Navigation.NavEvent.escapeKey (by decide),
    (nav_menu_state_consistent.2.2 ⟨true, true, ("true"), ("hidden")⟩ rfl).2.1⟩

/-- C7: the intersection-observer callbacks are idempotent per element — a
second delivery after a first intersecting one changes nothing, an element
fires at most once and is unobserved after firing, and an element already
carrying the `counted` class is never animated again. -/
theorem observer_idempotent :
    (∀ (e : AnimatedCounters.CounterElem) (b : Bool),
      AnimatedCounters.observerStep b (AnimatedCounters.observerStep true e)
        = AnimatedCounters.observerStep true e) ∧
    (∀ e : AnimatedCounters.CounterElem, e.counted = false →
      (AnimatedCounters.observerStep true e).counted = true ∧
      (AnimatedCounters.observerStep true e).observed = false) ∧
    (∀ (e : AnimatedCounters.CounterElem) (b : Bool), e.counted = true →
      AnimatedCounters.observerStep b e = e) ∧
    (∀ (r : ScrollReveal.RevealElem) (b : Bool),
      ScrollReveal.revealStep b (ScrollReveal.revealStep true r)
        = ScrollReveal.revealStep true r) ∧
    (∀ r : ScrollReveal.RevealElem, (ScrollReveal.revealStep true r).observed = false) := by
  refine ⟨?_, ?_, ?_, ?_, ?_⟩
  · intro e b
    cases he : e.counted <;>
      simp [AnimatedCounters.observerStep, he]
  · intro e he
    simp [AnimatedCounters.observerStep, he]
  · intro e b he
    simp [AnimatedCounters.observerStep, he]
  · intro r b
    cases b with
    | false => rfl
    | true =>
      cases hr : r.counterChild with
      | none => simp [ScrollReveal.revealStep, hr]
      | some c =>
        cases hc : c.counted <;>
          simp [ScrollReveal.revealStep, hr, hc]
  · intro r
    simp [ScrollReveal.revealStep]

/-- C7 witness: `observer_idempotent` applied to a concrete element that
has not yet fired, and to one already carrying the `counted` class. -/
theorem observer_idempotent_witness :
    ((⟨7, false, true, []⟩ : AnimatedCounters.CounterElem).counted = false ∧
      (AnimatedCounters.observerStep true ⟨7, false, true, []⟩).counted = true ∧
      (AnimatedCounters.observerStep true ⟨7, false, true, []⟩).observed = false) ∧
    ((⟨3, true, true, []⟩ : AnimatedCounters.CounterElem).counted = true ∧
      AnimatedCounters.observerStep false ⟨3, true, true, []⟩ = ⟨3, true, true, []⟩) :=
  ⟨⟨rfl, (observer_idempotent.2.1 ⟨7, false, true, []⟩ rfl).1,
      (observer_idempotent.2.1 ⟨7, false, true, []⟩ rfl).2⟩,
    ⟨rfl, observer_idempotent.2.2.1 ⟨3, true, true, []⟩ false rfl⟩⟩
